import Mathlib

/-!
Verification of the key-store / key-manager core of `autogen_oaiapi`
(`src/autogen_oaiapi/base/_key_manager.py`).

Python dictionaries are embedded as association lists that keep the
insertion-order semantics of CPython dicts: updating an existing key
replaces the value in place (keeping the key's position), inserting a
fresh key appends it at the end, and lookup returns the value of the
(unique) matching key.
-/

/-- Embedding of a Python `Dict[str, α]` lookup `d.get(k, None)`:
the value at the first matching key, `none` when absent. -/
def dictGet {α : Type} : List (String × α) → String → Option α
  | [], _ => none
  | p :: rest, k => if p.1 = k then some p.2 else dictGet rest k

/-- Embedding of the Python assignment `d[k] = v`: replace in place when the
key is present (CPython keeps the key's position), append otherwise. -/
def dictInsert {α : Type} : List (String × α) → String → α → List (String × α)
  | [], k, v => [(k, v)]
  | p :: rest, k, v => if p.1 = k then (k, v) :: rest else p :: dictInsert rest k v

/-- Embedding of the pydantic model `APIKeyEntry`
(`_key_manager.py` lines 6-10): `api_key`, `allowed_models`
(default `[]`), `is_active` (default `True`), optional `description`. -/
structure APIKeyEntry where
  api_key : String
  allowed_models : List String
  is_active : Bool
  description : Option String
deriving Repr, DecidableEq

/-- Embedding of `DefaultAPIKeyStore.__init__` state (lines 80-85): the
forward map `_api_keys : Dict[str, APIKeyEntry]` and the reverse index
`_key2name : Dict[str, str]`. -/
structure DefaultAPIKeyStore where
  _api_keys : List (String × APIKeyEntry)
  _key2name : List (String × String)
deriving Repr, DecidableEq

/-- A freshly constructed store: both dicts empty (lines 84-85). -/
def DefaultAPIKeyStore.empty : DefaultAPIKeyStore := ⟨[], []⟩

/-- Embedding of `DefaultAPIKeyStore.get_api_key_entry` (lines 107-115):
`return self._api_keys.get(self._key2name.get(api_key, ""), None)`. -/
def DefaultAPIKeyStore.get_api_key_entry (s : DefaultAPIKeyStore)
    (api_key : String) : Option APIKeyEntry :=
  dictGet s._api_keys ((dictGet s._key2name api_key).getD "")

/-- Embedding of `DefaultAPIKeyStore.set_api_key` (lines 117-134): builds a
new entry with empty `allowed_models`, default `is_active = True`, stores it
under `key_name` and points `_key2name[api_key] = key_name`; returns the
entry. -/
def DefaultAPIKeyStore.set_api_key (s : DefaultAPIKeyStore)
    (key_name api_key : String) (description : Option String) :
    DefaultAPIKeyStore × APIKeyEntry :=
  let entry : APIKeyEntry := ⟨api_key, [], true, description⟩
  (⟨dictInsert s._api_keys key_name entry,
    dictInsert s._key2name api_key key_name⟩, entry)

/-- Embedding of `DefaultAPIKeyStore.set_api_key_entry` (lines 97-105):
`self._api_keys[key_name] = key_entry; self._key2name[key_entry.api_key] = key_name`. -/
def DefaultAPIKeyStore.set_api_key_entry (s : DefaultAPIKeyStore)
    (key_name : String) (key_entry : APIKeyEntry) : DefaultAPIKeyStore :=
  ⟨dictInsert s._api_keys key_name key_entry,
   dictInsert s._key2name key_entry.api_key key_name⟩

/-- Embedding of `DefaultAPIKeyStore.set_api_key_entry_batch` (lines 87-95):
`self._api_keys.update(key_entries)` followed by a loop setting
`self._key2name[entry.api_key] = key_name` for each item, in the iteration
order of `key_entries` (modelled as the list order). -/
def DefaultAPIKeyStore.set_api_key_entry_batch (s : DefaultAPIKeyStore)
    (key_entries : List (String × APIKeyEntry)) : DefaultAPIKeyStore :=
  ⟨key_entries.foldl (fun d p => dictInsert d p.1 p.2) s._api_keys,
   key_entries.foldl (fun d p => dictInsert d p.2.api_key p.1) s._key2name⟩

/-- Embedding of `DefaultAPIKeyStore.set_model_to_api_key` (lines 136-151):
returns `False` when `key_name` is absent; otherwise appends `model` to the
entry's `allowed_models` when not already present (returning `True`), else
returns `False`.  The Python code mutates the entry in place; here the
forward map is rewritten with the updated entry, the reverse index is
untouched. -/
def DefaultAPIKeyStore.set_model_to_api_key (s : DefaultAPIKeyStore)
    (key_name model : String) : DefaultAPIKeyStore × Bool :=
  match dictGet s._api_keys key_name with
  | none => (s, false)
  | some entry =>
    if model ∈ entry.allowed_models then (s, false)
    else (⟨dictInsert s._api_keys key_name
        ⟨entry.api_key, entry.allowed_models ++ [model],
         entry.is_active, entry.description⟩, s._key2name⟩, true)

/-- Embedding of `DefaultAPIKeyStore.set_api_key_active_status`
(lines 153-161): when `key_name` is present, overwrite the entry's
`is_active` field in place; otherwise do nothing. -/
def DefaultAPIKeyStore.set_api_key_active_status (s : DefaultAPIKeyStore)
    (key_name : String) (is_active : Bool) : DefaultAPIKeyStore :=
  match dictGet s._api_keys key_name with
  | none => s
  | some entry =>
    ⟨dictInsert s._api_keys key_name
      ⟨entry.api_key, entry.allowed_models, is_active, entry.description⟩,
     s._key2name⟩

/-- Embedding of `DefaultAPIKeyStore.get_all_api_key_entries`
(lines 163-169): `return list(self._api_keys.items())`, in dict insertion
order. -/
def DefaultAPIKeyStore.get_all_api_key_entries (s : DefaultAPIKeyStore) :
    List (String × APIKeyEntry) :=
  s._api_keys

/-- Embedding of `BaseKeyManager.get_allow_models` (lines 176-185), over the
default store: `key_entry.allowed_models if key_entry else []`. -/
def BaseKeyManager.get_allow_models (s : DefaultAPIKeyStore)
    (api_key : String) : List String :=
  match s.get_api_key_entry api_key with
  | some e => e.allowed_models
  | none => []

/-- Embedding of `BaseKeyManager.set_allow_model` (lines 187-196):
delegates to the store's `set_model_to_api_key`. -/
def BaseKeyManager.set_allow_model (s : DefaultAPIKeyStore)
    (key_name model : String) : DefaultAPIKeyStore × Bool :=
  s.set_model_to_api_key key_name model

/-- Embedding of `BaseKeyManager.set_api_key` (lines 198-208): the external
collaborator `generate_key()` is modelled by the explicit argument
`generated_key`; the manager stores it via the store's `set_api_key` (with
no description) and returns it. -/
def BaseKeyManager.set_api_key (s : DefaultAPIKeyStore)
    (key_name generated_key : String) : DefaultAPIKeyStore × String :=
  ((s.set_api_key key_name generated_key none).1, generated_key)

/-- Embedding of `BaseKeyManager.get_api_key` (lines 210-222): the code
passes `key_name` to the store's secret-keyed `get_api_key_entry` and
returns the entry's `api_key` when found, else the literal
`"BASE_API_KEY"`. -/
def BaseKeyManager.get_api_key (s : DefaultAPIKeyStore)
    (key_name : String) : String :=
  match s.get_api_key_entry key_name with
  | some e => e.api_key
  | none => "BASE_API_KEY"

/-- Spec sentence for C2, stated over the embedding: the reverse index
equals exactly the map derived from the forward map — every stored entry's
secret maps back to its name, and every key of the reverse index is the
secret of some stored entry. -/
def reverseIndexExact (s : DefaultAPIKeyStore) : Prop :=
  (∀ p ∈ s._api_keys, dictGet s._key2name p.2.api_key = some p.1) ∧
  (∀ q ∈ s._key2name, ∃ p ∈ s._api_keys, p.2.api_key = q.1)

/-- The part of the reverse-index invariant the code actually maintains:
every stored entry's secret is a key of the reverse index, and every name
the reverse index points to is a key of the forward map. -/
def reverseIndexWeak (s : DefaultAPIKeyStore) : Prop :=
  (∀ p ∈ s._api_keys, (dictGet s._key2name p.2.api_key).isSome) ∧
  (∀ q ∈ s._key2name, (dictGet s._api_keys q.2).isSome)

instance reverseIndexExact.inst (s : DefaultAPIKeyStore) :
    Decidable (reverseIndexExact s) := by
  unfold reverseIndexExact
  infer_instance

instance reverseIndexWeak.inst (s : DefaultAPIKeyStore) :
    Decidable (reverseIndexWeak s) := by
  unfold reverseIndexWeak
  infer_instance

/-- Repeated insertion of `(name, secret)` pairs via the store's
`set_api_key`, in list order (used to state the insertion-order property of
`get_all_api_key_entries`). -/
def insertKeys (s : DefaultAPIKeyStore) : List (String × String) → DefaultAPIKeyStore
  | [] => s
  | p :: rest => insertKeys (s.set_api_key p.1 p.2 none).1 rest

theorem dictGet_insert_self {α : Type} (d : List (String × α)) (k : String) (v : α) :
    dictGet (dictInsert d k v) k = some v := by
  induction d with
  | nil => simp [dictInsert, dictGet]
  | cons p rest ih =>
    by_cases h : p.1 = k
    · simp [dictInsert, dictGet, h]
    · simp [dictInsert, dictGet, h, ih]

theorem dictGet_insert_ne {α : Type} (d : List (String × α)) {k k' : String} (v : α)
    (h : k ≠ k') : dictGet (dictInsert d k v) k' = dictGet d k' := by
  induction d with
  | nil => simp [dictInsert, dictGet, h]
  | cons p rest ih =>
    by_cases hp : p.1 = k
    · subst hp
      simp [dictInsert, dictGet, h]
    · simp only [dictInsert, if_neg hp, dictGet]
      by_cases hp' : p.1 = k'
      · simp [hp']
      · simp [hp', ih]

theorem mem_dictInsert {α : Type} {d : List (String × α)} {k : String} {v : α}
    {p : String × α} (h : p ∈ dictInsert d k v) : p = (k, v) ∨ p ∈ d := by
  induction d with
  | nil => simpa [dictInsert] using h
  | cons q rest ih =>
    by_cases hq : q.1 = k
    · simp only [dictInsert, if_pos hq, List.mem_cons] at h
      rcases h with h | h
      · exact Or.inl h
      · exact Or.inr (List.mem_cons_of_mem _ h)
    · simp only [dictInsert, if_neg hq, List.mem_cons] at h
      rcases h with h | h
      · exact Or.inr (List.mem_cons.mpr (Or.inl h))
      · rcases ih h with h' | h'
        · exact Or.inl h'
        · exact Or.inr (List.mem_cons_of_mem _ h')

theorem dictGet_insert_isSome {α : Type} (d : List (String × α)) (k m : String)
    (v : α) (h : (dictGet d m).isSome) : (dictGet (dictInsert d k v) m).isSome := by
  by_cases hk : k = m
  · subst hk
    simp [dictGet_insert_self]
  · rw [dictGet_insert_ne d v hk]
    exact h

theorem dictGet_mem {α : Type} {d : List (String × α)} {k : String} {v : α}
    (h : dictGet d k = some v) : (k, v) ∈ d := by
  induction d with
  | nil => simp [dictGet] at h
  | cons p rest ih =>
    rcases p with ⟨a, b⟩
    by_cases ha : a = k
    · simp only [dictGet, if_pos ha, Option.some.injEq] at h
      subst ha
      subst h
      exact List.mem_cons_self _ _
    · simp only [dictGet, if_neg ha] at h
      exact List.mem_cons_of_mem _ (ih h)

theorem dictInsert_of_get_none {α : Type} {d : List (String × α)} {k : String}
    (v : α) (h : dictGet d k = none) : dictInsert d k v = d ++ [(k, v)] := by
  induction d with
  | nil => simp [dictInsert]
  | cons p rest ih =>
    by_cases hp : p.1 = k
    · simp [dictGet, hp] at h
    · simp only [dictGet, if_neg hp] at h
      simp [dictInsert, hp, ih h]

theorem dictGet_append_single_none {α : Type} {d : List (String × α)}
    {k n : String} (v : α) (h1 : dictGet d k = none) (h2 : n ≠ k) :
    dictGet (d ++ [(n, v)]) k = none := by
  induction d with
  | nil => simp [dictGet, h2]
  | cons p rest ih =>
    by_cases hp : p.1 = k
    · simp [dictGet, hp] at h1
    · simp only [dictGet, if_neg hp] at h1
      simp [dictGet, hp, ih h1]

theorem set_api_key_fst_eq_set_entry (s : DefaultAPIKeyStore)
    (n k : String) (d : Option String) :
    (s.set_api_key n k d).1 = s.set_api_key_entry n ⟨k, [], true, d⟩ := rfl

theorem set_api_key_entry_batch_cons (s : DefaultAPIKeyStore)
    (p : String × APIKeyEntry) (rest : List (String × APIKeyEntry)) :
    s.set_api_key_entry_batch (p :: rest)
      = (s.set_api_key_entry p.1 p.2).set_api_key_entry_batch rest := rfl

theorem reverseIndexWeak_set_entry (s : DefaultAPIKeyStore) (n : String)
    (e : APIKeyEntry) (h : reverseIndexWeak s) :
    reverseIndexWeak (s.set_api_key_entry n e) := by
  obtain ⟨h1, h2⟩ := h
  constructor
  · intro p hp
    rcases mem_dictInsert hp with rfl | hp'
    · simp [DefaultAPIKeyStore.set_api_key_entry, dictGet_insert_self]
    · exact dictGet_insert_isSome _ _ _ _ (h1 p hp')
  · intro q hq
    rcases mem_dictInsert hq with rfl | hq'
    · simp [DefaultAPIKeyStore.set_api_key_entry, dictGet_insert_self]
    · exact dictGet_insert_isSome _ _ _ _ (h2 q hq')

theorem reverseIndexWeak_batch (s : DefaultAPIKeyStore)
    (l : List (String × APIKeyEntry)) (h : reverseIndexWeak s) :
    reverseIndexWeak (s.set_api_key_entry_batch l) := by
  induction l generalizing s with
  | nil => exact h
  | cons p rest ih =>
    rw [set_api_key_entry_batch_cons]
    exact ih _ (reverseIndexWeak_set_entry s p.1 p.2 h)

theorem reverseIndexWeak_set_model (s : DefaultAPIKeyStore) (n m : String)
    (h : reverseIndexWeak s) :
    reverseIndexWeak (s.set_model_to_api_key n m).1 := by
  obtain ⟨h1, h2⟩ := h
  unfold DefaultAPIKeyStore.set_model_to_api_key
  cases hg : dictGet s._api_keys n with
  | none => exact ⟨h1, h2⟩
  | some entry =>
    by_cases hm : m ∈ entry.allowed_models
    · simp only [if_pos hm]
      exact ⟨h1, h2⟩
    · simp only [if_neg hm]
      constructor
      · intro p hp
        rcases mem_dictInsert hp with rfl | hp'
        · exact h1 (n, entry) (dictGet_mem hg)
        · exact h1 p hp'
      · intro q hq
        exact dictGet_insert_isSome _ _ _ _ (h2 q hq)

theorem reverseIndexWeak_set_active (s : DefaultAPIKeyStore) (n : String)
    (b : Bool) (h : reverseIndexWeak s) :
    reverseIndexWeak (s.set_api_key_active_status n b) := by
  obtain ⟨h1, h2⟩ := h
  unfold DefaultAPIKeyStore.set_api_key_active_status
  cases hg : dictGet s._api_keys n with
  | none => exact ⟨h1, h2⟩
  | some entry =>
    constructor
    · intro p hp
      rcases mem_dictInsert hp with rfl | hp'
      · exact h1 (n, entry) (dictGet_mem hg)
      · exact h1 p hp'
    · intro q hq
      exact dictGet_insert_isSome _ _ _ _ (h2 q hq)

/-- C1 (counterexample): after `set_api_key("n","sA")` then
`set_api_key("n","sB")`, the claim says `get_api_key_entry("sA")` returns
`None`; on the code it does not — the stale reverse-index entry for `"sA"`
survives and resolves to the new entry. -/
theorem lookup_old_secret_after_rotation_not_none :
    ¬ ((((DefaultAPIKeyStore.empty.set_api_key "n" "sA" none).1.set_api_key
        "n" "sB" none).1.get_api_key_entry "sA") = none) := by decide

/-- C1 (amended): after `set_api_key(name, secretA)` followed by
`set_api_key(name, secretB)` with `secretA ≠ secretB`, lookup of `secretB`
returns the new entry, but the stale reverse-index entry for `secretA`
survives the rotation: lookup of `secretA` also returns that same new entry
(whose stored secret is `secretB`), not `None`. -/
theorem set_api_key_rotation_stale (s : DefaultAPIKeyStore)
    (n sA sB : String) (d1 d2 : Option String) (h : sA ≠ sB) :
    ((((s.set_api_key n sA d1).1.set_api_key n sB d2).1.get_api_key_entry sA)
      = some ⟨sB, [], true, d2⟩) ∧
    ((((s.set_api_key n sA d1).1.set_api_key n sB d2).1.get_api_key_entry sB)
      = some ⟨sB, [], true, d2⟩) := by
  constructor
  · simp only [DefaultAPIKeyStore.set_api_key, DefaultAPIKeyStore.get_api_key_entry]
    rw [dictGet_insert_ne _ _ (Ne.symm h), dictGet_insert_self]
    simp [dictGet_insert_self]
  · simp only [DefaultAPIKeyStore.set_api_key, DefaultAPIKeyStore.get_api_key_entry]
    rw [dictGet_insert_self]
    simp [dictGet_insert_self]

/-- C1 witness: the amended rotation behavior at a concrete store. -/
theorem set_api_key_rotation_stale_witness :
    ((((DefaultAPIKeyStore.empty.set_api_key "n" "sA" none).1.set_api_key
        "n" "sB" none).1.get_api_key_entry "sA") = some ⟨"sB", [], true, none⟩) ∧
    ((((DefaultAPIKeyStore.empty.set_api_key "n" "sA" none).1.set_api_key
        "n" "sB" none).1.get_api_key_entry "sB") = some ⟨"sB", [], true, none⟩) :=
  set_api_key_rotation_stale DefaultAPIKeyStore.empty "n" "sA" "sB" none none (by decide)

/-- C2 (counterexample): after the secret rotation
`set_api_key("n","sA"); set_api_key("n","sB")` the reverse index still
holds the key `"sA"`, which is no stored entry's secret, so `_key2name`
does not equal the map derived from `_api_keys`. -/
theorem reverseIndexExact_fails_after_rotation :
    ¬ reverseIndexExact
      (((DefaultAPIKeyStore.empty.set_api_key "n" "sA" none).1.set_api_key
        "n" "sB" none).1) := by decide

/-- C2 (amended): the exact reverse-index equality is not an invariant of
the code (stale secrets survive rotation), but every mutating operation
(`set_api_key`, `set_api_key_entry`, `set_api_key_entry_batch`,
`set_model_to_api_key`, `set_api_key_active_status`) preserves the weaker
invariant that every stored entry's secret is a key of `_key2name` and
every name `_key2name` points to is a key of `_api_keys`. -/
theorem reverseIndexWeak_preserved (s : DefaultAPIKeyStore)
    (h : reverseIndexWeak s) :
    (∀ n k d, reverseIndexWeak (s.set_api_key n k d).1) ∧
    (∀ n e, reverseIndexWeak (s.set_api_key_entry n e)) ∧
    (∀ l, reverseIndexWeak (s.set_api_key_entry_batch l)) ∧
    (∀ n m, reverseIndexWeak (s.set_model_to_api_key n m).1) ∧
    (∀ n b, reverseIndexWeak (s.set_api_key_active_status n b)) := by
  refine ⟨?_, ?_, ?_, ?_, ?_⟩
  · intro n k d
    rw [set_api_key_fst_eq_set_entry]
    exact reverseIndexWeak_set_entry s n _ h
  · intro n e
    exact reverseIndexWeak_set_entry s n e h
  · intro l
    exact reverseIndexWeak_batch s l h
  · intro n m
    exact reverseIndexWeak_set_model s n m h
  · intro n b
    exact reverseIndexWeak_set_active s n b h

/-- C2 witness: the weak invariant holds after a concrete `set_api_key` on
the empty store. -/
theorem reverseIndexWeak_preserved_witness :
    reverseIndexWeak ((DefaultAPIKeyStore.empty.set_api_key "a" "k" none).1) :=
  (reverseIndexWeak_preserved DefaultAPIKeyStore.empty (by decide)).1 "a" "k" none

/-- C3: `BaseKeyManager.get_api_key` passes the key *name* to the store's
secret-keyed `get_api_key_entry`, so for a store holding the entry
`"alice" ↦ ⟨"sk1", [], true, none⟩` in its forward map, `get_api_key("alice")`
returns the sentinel `"BASE_API_KEY"` instead of the stored secret `"sk1"`. -/
theorem get_api_key_known_name_returns_sentinel :
    (dictGet (DefaultAPIKeyStore.empty.set_api_key "alice" "sk1" none).1._api_keys
        "alice" = some ⟨"sk1", [], true, none⟩) ∧
    BaseKeyManager.get_api_key
        (DefaultAPIKeyStore.empty.set_api_key "alice" "sk1" none).1 "alice"
      = "BASE_API_KEY" := by decide

theorem set_model_to_api_key_already_present (st : DefaultAPIKeyStore)
    (n m : String) (e : APIKeyEntry) (h : dictGet st._api_keys n = some e)
    (hm : m ∈ e.allowed_models) : st.set_model_to_api_key n m = (st, false) := by
  unfold DefaultAPIKeyStore.set_model_to_api_key
  rw [h]
  simp [hm]

/-- C4: granting a model is idempotent — when the store holds an entry
under `n` whose `allowed_models` does not yet contain `m`, the first
`set_model_to_api_key n m` returns `true`, the second returns `false`, and
the resulting entry's `allowed_models` contains exactly one occurrence of
`m`. -/
theorem set_model_to_api_key_idempotent (s : DefaultAPIKeyStore)
    (n m : String) (e : APIKeyEntry) (h1 : dictGet s._api_keys n = some e)
    (h2 : m ∉ e.allowed_models) :
    (s.set_model_to_api_key n m).2 = true ∧
    ((s.set_model_to_api_key n m).1.set_model_to_api_key n m).2 = false ∧
    dictGet ((s.set_model_to_api_key n m).1.set_model_to_api_key n m).1._api_keys n
      = some ⟨e.api_key, e.allowed_models ++ [m], e.is_active, e.description⟩ ∧
    (e.allowed_models ++ [m]).count m = 1 := by
  have hstep : s.set_model_to_api_key n m
      = (⟨dictInsert s._api_keys n
          ⟨e.api_key, e.allowed_models ++ [m], e.is_active, e.description⟩,
         s._key2name⟩, true) := by
    unfold DefaultAPIKeyStore.set_model_to_api_key
    rw [h1]
    simp [h2]
  have hmem : m ∈ e.allowed_models ++ [m] := List.mem_append_right _ (by simp)
  have hget2 : dictGet (s.set_model_to_api_key n m).1._api_keys n
      = some ⟨e.api_key, e.allowed_models ++ [m], e.is_active, e.description⟩ := by
    rw [hstep]
    exact dictGet_insert_self _ _ _
  have hstep2 : (s.set_model_to_api_key n m).1.set_model_to_api_key n m
      = ((s.set_model_to_api_key n m).1, false) :=
    set_model_to_api_key_already_present _ n m _ hget2 hmem
  refine ⟨by rw [hstep], by rw [hstep2], by rw [hstep2]; exact hget2, ?_⟩
  rw [List.count_append, List.count_eq_zero.mpr h2]
  simp

/-- C4 witness: concrete idempotent grant. -/
theorem set_model_to_api_key_idempotent_witness :
    ((DefaultAPIKeyStore.empty.set_api_key "svc" "sk" none).1.set_model_to_api_key
        "svc" "gpt").2 = true ∧
    (((DefaultAPIKeyStore.empty.set_api_key "svc" "sk" none).1.set_model_to_api_key
        "svc" "gpt").1.set_model_to_api_key "svc" "gpt").2 = false ∧
    dictGet (((DefaultAPIKeyStore.empty.set_api_key "svc" "sk" none).1.set_model_to_api_key
        "svc" "gpt").1.set_model_to_api_key "svc" "gpt").1._api_keys "svc"
      = some ⟨"sk", [] ++ ["gpt"], true, none⟩ ∧
    (([] ++ ["gpt"] : List String)).count "gpt" = 1 :=
  set_model_to_api_key_idempotent
    (DefaultAPIKeyStore.empty.set_api_key "svc" "sk" none).1 "svc" "gpt"
    ⟨"sk", [], true, none⟩ (by decide) (by decide)

/-- C5: granting a model to an unknown name returns `false` and leaves the
whole store (forward map and reverse index alike) unchanged; the operation
is total, so no exception path exists. -/
theorem set_model_to_api_key_unknown_noop (s : DefaultAPIKeyStore)
    (n m : String) (h : dictGet s._api_keys n = none) :
    s.set_model_to_api_key n m = (s, false) := by
  unfold DefaultAPIKeyStore.set_model_to_api_key
  rw [h]

/-- C5 witness: concrete unknown-name grant is a no-op. -/
theorem set_model_to_api_key_unknown_noop_witness :
    (DefaultAPIKeyStore.empty.set_api_key "svc" "sk" none).1.set_model_to_api_key
        "ghost" "gpt"
      = ((DefaultAPIKeyStore.empty.set_api_key "svc" "sk" none).1, false) :=
  set_model_to_api_key_unknown_noop _ "ghost" "gpt" (by decide)

/-- C6 (counterexample): a store holding an entry under the empty-string
name answers a secret that is absent from the reverse index with that
entry's models: `get_allow_models` on the unknown secret `"unknown"`
returns `["gpt"]`, not the empty sequence. -/
theorem get_allow_models_unknown_secret_nonempty :
    (dictGet (((DefaultAPIKeyStore.empty.set_api_key "" "sk" none).1.set_model_to_api_key
        "" "gpt").1)._key2name "unknown" = none) ∧
    BaseKeyManager.get_allow_models
        (((DefaultAPIKeyStore.empty.set_api_key "" "sk" none).1.set_model_to_api_key
          "" "gpt").1) "unknown" = ["gpt"] := by decide

/-- C6 (amended): for a secret absent from the reverse index,
`get_allow_models` returns the empty sequence provided no entry is stored
under the empty-string name (the reverse-index miss falls back to the
sentinel name `""`). -/
theorem get_allow_models_unknown_secret_empty (s : DefaultAPIKeyStore)
    (k : String) (h1 : dictGet s._key2name k = none)
    (h2 : dictGet s._api_keys "" = none) :
    BaseKeyManager.get_allow_models s k = [] := by
  unfold BaseKeyManager.get_allow_models DefaultAPIKeyStore.get_api_key_entry
  rw [h1]
  simp [h2]

/-- C6 witness: unknown secret on a store with no empty-string name. -/
theorem get_allow_models_unknown_secret_empty_witness :
    BaseKeyManager.get_allow_models
      ((DefaultAPIKeyStore.empty.set_api_key "a" "k" none).1) "zz" = [] :=
  get_allow_models_unknown_secret_empty _ "zz" (by decide) (by decide)

/-- C7: inserting `(name, secret)` via the store's `set_api_key` (or the
manager's `set_api_key`, whose generated secret is the explicit argument)
makes `get_api_key_entry secret` return the fresh entry, whose stored
secret equals `secret`, whose `allowed_models` is empty, and whose
`is_active` is `true`. -/
theorem set_api_key_lookup_roundtrip (s : DefaultAPIKeyStore)
    (n k : String) (d : Option String) :
    ((s.set_api_key n k d).1.get_api_key_entry k = some ⟨k, [], true, d⟩) ∧
    ((s.set_api_key n k d).2 = ⟨k, [], true, d⟩) ∧
    ((BaseKeyManager.set_api_key s n k).1.get_api_key_entry k
      = some ⟨k, [], true, none⟩) ∧
    ((BaseKeyManager.set_api_key s n k).2 = k) := by
  refine ⟨?_, rfl, ?_, rfl⟩
  · unfold DefaultAPIKeyStore.set_api_key DefaultAPIKeyStore.get_api_key_entry
    rw [dictGet_insert_self]
    simp [dictGet_insert_self]
  · unfold BaseKeyManager.set_api_key DefaultAPIKeyStore.set_api_key
      DefaultAPIKeyStore.get_api_key_entry
    rw [dictGet_insert_self]
    simp [dictGet_insert_self]

/-- C8: flipping the active status does not gate lookup — after
`set_api_key_active_status n false` on an indexed entry, lookup by its
secret still returns the entry, now with `is_active = false`; and the
operation is a silent no-op on an unknown name. -/
theorem set_active_does_not_gate_lookup (s : DefaultAPIKeyStore)
    (n : String) (e : APIKeyEntry) (h1 : dictGet s._api_keys n = some e)
    (h2 : dictGet s._key2name e.api_key = some n) :
    ((s.set_api_key_active_status n false).get_api_key_entry e.api_key
      = some ⟨e.api_key, e.allowed_models, false, e.description⟩) ∧
    (∀ n' b, dictGet s._api_keys n' = none →
      s.set_api_key_active_status n' b = s) := by
  constructor
  · unfold DefaultAPIKeyStore.set_api_key_active_status
    rw [h1]
    unfold DefaultAPIKeyStore.get_api_key_entry
    simp [h2, dictGet_insert_self]
  · intro n' b h
    unfold DefaultAPIKeyStore.set_api_key_active_status
    rw [h]

/-- C8 witness: deactivation on a concrete store, and a concrete
unknown-name no-op. -/
theorem set_active_does_not_gate_lookup_witness :
    (((DefaultAPIKeyStore.empty.set_api_key "svc" "sk" none).1.set_api_key_active_status
        "svc" false).get_api_key_entry "sk" = some ⟨"sk", [], false, none⟩) ∧
    ((DefaultAPIKeyStore.empty.set_api_key "svc" "sk" none).1.set_api_key_active_status
        "zz" true = (DefaultAPIKeyStore.empty.set_api_key "svc" "sk" none).1) :=
  ⟨(set_active_does_not_gate_lookup _ "svc" ⟨"sk", [], true, none⟩
      (by decide) (by decide)).1,
   (set_active_does_not_gate_lookup _ "svc" ⟨"sk", [], true, none⟩
      (by decide) (by decide)).2 "zz" true (by decide)⟩

/-- C9: inserting pairwise-distinct fresh names in a given order makes
`get_all_api_key_entries` list the new `(name, entry)` pairs after the
pre-existing ones, in exactly the insertion order. -/
theorem get_all_insertion_order (s : DefaultAPIKeyStore)
    (ps : List (String × String)) (h1 : (ps.map Prod.fst).Nodup)
    (h2 : ∀ p ∈ ps, dictGet s._api_keys p.1 = none) :
    (insertKeys s ps).get_all_api_key_entries
      = s._api_keys ++ ps.map (fun p => (p.1, ⟨p.2, [], true, none⟩)) := by
  induction ps generalizing s with
  | nil => simp [insertKeys, DefaultAPIKeyStore.get_all_api_key_entries]
  | cons p rest ih =>
    simp only [List.map_cons, List.nodup_cons] at h1
    obtain ⟨hnotin, hnodup⟩ := h1
    have hfresh := h2 p (List.mem_cons_self _ _)
    have hfwd : (s.set_api_key p.1 p.2 none).1._api_keys
        = s._api_keys ++ [(p.1, ⟨p.2, [], true, none⟩)] :=
      dictInsert_of_get_none _ hfresh
    have hrest : ∀ q ∈ rest, dictGet (s.set_api_key p.1 p.2 none).1._api_keys q.1 = none := by
      intro q hq
      rw [hfwd]
      refine dictGet_append_single_none _ (h2 q (List.mem_cons_of_mem _ hq)) ?_
      intro hcontra
      exact hnotin (hcontra ▸ List.mem_map_of_mem Prod.fst hq)
    show (insertKeys (s.set_api_key p.1 p.2 none).1 rest).get_all_api_key_entries = _
    rw [ih _ hnodup hrest, hfwd]
    simp

/-- C9 witness: inserting `"a"`, `"b"`, `"c"` in that order lists them in
that order. -/
theorem get_all_insertion_order_witness :
    (insertKeys DefaultAPIKeyStore.empty
        [("a", "ka"), ("b", "kb"), ("c", "kc")]).get_all_api_key_entries
      = [("a", ⟨"ka", [], true, none⟩), ("b", ⟨"kb", [], true, none⟩),
         ("c", ⟨"kc", [], true, none⟩)] :=
  (get_all_insertion_order DefaultAPIKeyStore.empty
    [("a", "ka"), ("b", "kb"), ("c", "kc")] (by decide) (by decide)).trans (by decide)

/-- C10: `get_api_key_entry` falls back to the empty-string name — for a
secret absent from the reverse index, the result is exactly the forward
map's entry under `""`: `None` when no such entry exists, and the
`""`-named entry for every unknown secret otherwise. -/
theorem get_api_key_entry_empty_name_fallback (s : DefaultAPIKeyStore)
    (k : String) (h : dictGet s._key2name k = none) :
    (s.get_api_key_entry k = dictGet s._api_keys "") ∧
    (s.get_api_key_entry k = none ↔ dictGet s._api_keys "" = none) ∧
    (∀ e, dictGet s._api_keys "" = some e → s.get_api_key_entry k = some e) := by
  have hmain : s.get_api_key_entry k = dictGet s._api_keys "" := by
    unfold DefaultAPIKeyStore.get_api_key_entry
    rw [h, Option.getD_none]
  exact ⟨hmain, by rw [hmain], fun e he => hmain.trans he⟩

/-- C10 witness: a store with an entry named `""` answers the unknown
secret `"zz"` with that entry. -/
theorem get_api_key_entry_empty_name_fallback_witness :
    (DefaultAPIKeyStore.empty.set_api_key "" "sk" none).1.get_api_key_entry "zz"
      = some ⟨"sk", [], true, none⟩ :=
  (get_api_key_entry_empty_name_fallback _ "zz" (by decide)).2.2
    ⟨"sk", [], true, none⟩ (by decide)
